import Mathlib

/-!
Verification of the PDF outline extractor (app.py / simple_extractor.py).

The pipeline is embedded shallowly: a parsed document is modelled as the
sequence of text blocks its span scan yields (an Option value models the
open/parse failure path of the try/except), font sizes are rationals
(the Python code only ever compares float sizes for equality and order,
never does arithmetic on them, so any ordered field models them
faithfully), and the regular expressions of the heading filters are
translated at the character-class level for ASCII text.
-/

namespace PDFOutline

/-- ASCII model of Python's regex word class w: letters, digits, underscore. -/
def isPyWordChar (c : Char) : Bool :=
  c.isAlphanum || c = '_'

/-- Python regex whitespace class s (ASCII part). -/
def isPySpace (c : Char) : Bool :=
  c = ' ' || c = '\t' || c = '\n' || c = '\r' || c = '\x0b' || c = '\x0c'

/-- The character class of the pattern [ds.-()] used by both gates. -/
def isDigitsPunctClass (c : Char) : Bool :=
  c.isDigit || isPySpace c || c = '.' || c = '-' || c = '(' || c = ')'

/-- re.match of the anchored pattern matching strings made only of
digits, whitespace, dots, hyphens and parentheses (one or more chars).
(The trailing anchor also accepts one final newline, but a newline is
itself in the class, so full-match is equivalent.) -/
def digitsPunctOnlyPat (cs : List Char) : Bool :=
  !cs.isEmpty && cs.all isDigitsPunctClass

/-- Case-insensitive literal prefix match: returns the rest of the input
after the prefix when the pattern chars match caselessly. -/
def matchCaseless : List Char → List Char → Option (List Char)
  | [], cs => some cs
  | _, [] => none
  | p :: ps, c :: cs => if c.toLower = p.toLower then matchCaseless ps cs else none

/-- re.match of a version-number-like prefix: one or more digits, a dot,
one or more digits.  Greedy matching is equivalent to maximal munch here
because a dot is not a digit. -/
def versionPat (cs : List Char) : Bool :=
  match cs with
  | [] => false
  | c :: rest =>
    c.isDigit &&
      (match rest.dropWhile Char.isDigit with
       | '.' :: c2 :: _ => c2.isDigit
       | _ => false)

/-- re.match, case-insensitive, of a literal word, a space, then a digit:
shared shape of the Page/Figure/Table patterns. -/
def wordNumPat (word : List Char) (cs : List Char) : Bool :=
  match matchCaseless word cs with
  | some (c :: _) => c.isDigit
  | _ => false

/-- re.match, case-insensitive, of a leading www. -/
def wwwPat (cs : List Char) : Bool :=
  (matchCaseless "www.".data cs).isSome

/-- re.match, case-insensitive, of a leading http:// or https://. -/
def httpPat (cs : List Char) : Bool :=
  match matchCaseless "http".data cs with
  | some rest =>
    (match rest with
     | c :: cs2 => if c.toLower = 's' then (matchCaseless "://".data cs2).isSome
                   else (matchCaseless "://".data rest).isSome
     | [] => false)
  | none => false

/-- re.match of an email-like prefix: word chars, at sign, a word char.
Maximal munch is equivalent because the at sign is not a word char. -/
def emailPat (cs : List Char) : Bool :=
  match cs with
  | [] => false
  | c :: _ =>
    isPyWordChar c &&
      (match cs.dropWhile isPyWordChar with
       | '@' :: c2 :: _ => isPyWordChar c2
       | _ => false)

/-- The seven anchored non-heading patterns shared verbatim by both
implementations, in source order: version number, Page n, Figure n,
Table n, www., http(s)://, email. -/
def matchesNonHeading7 (cs : List Char) : Bool :=
  versionPat cs || wordNumPat "Page ".data cs || wordNumPat "Figure ".data cs ||
    wordNumPat "Table ".data cs || wwwPat cs || httpPat cs || emailPat cs

/-- text.endswith(e) for e in the heading-ending list [dot, colon,
question mark, exclamation mark]. -/
def endsWithHeadingPunct (cs : List Char) : Bool :=
  match cs.getLast? with
  | some c => c = '.' || c = ':' || c = '?' || c = '!'
  | none => false

/-- Python str.isupper for ASCII: at least one cased character and no
lowercase character. -/
def pythonIsUpper (cs : List Char) : Bool :=
  cs.any (fun c => c.isUpper || c.isLower) && cs.all (fun c => !c.isLower)

/-- One step of Python str.istitle: tracks whether the previous character
was cased and whether a cased character was seen at all. -/
def pythonIsTitleAux : List Char → Bool → Bool → Bool
  | [], _, found => found
  | c :: cs, prevCased, found =>
    if c.isUpper then
      if prevCased then false else pythonIsTitleAux cs true true
    else if c.isLower then
      if prevCased then pythonIsTitleAux cs true true else false
    else pythonIsTitleAux cs false found

/-- Python str.istitle for ASCII: every maximal cased run starts with an
uppercase letter followed by lowercase letters, and at least one cased
character occurs. -/
def pythonIsTitle (cs : List Char) : Bool :=
  pythonIsTitleAux cs false false

/-- The configuration fields set in PDFOutlineExtractor.__init__. -/
structure Config where
  min_font_size : ℚ
  max_font_size : ℚ
  min_heading_length : ℕ
  max_heading_length : ℕ
deriving DecidableEq

/-- The values assigned in PDFOutlineExtractor.__init__. -/
def defaultConfig : Config := ⟨8, 72, 3, 200⟩

/-- One styled text span as collected by extract_text_blocks. -/
structure TextBlock where
  text : String
  font_size : ℚ
  font_name : String
  flags : ℤ
  page : ℕ
  bbox : ℚ × ℚ × ℚ × ℚ
deriving DecidableEq

/-- The tier-to-size dictionary built by analyze_font_hierarchy; absent
keys are modelled by none. -/
structure FontHierarchy where
  title : Option ℚ
  H1 : Option ℚ
  H2 : Option ℚ
  H3 : Option ℚ
deriving DecidableEq

/-- One outline entry as produced by extract_headings. -/
structure Heading where
  level : String
  text : String
  page : ℕ
deriving DecidableEq

/-- The final result dictionary of extract_outline. -/
structure OutlineResult where
  title : String
  outline : List Heading
deriving DecidableEq

/-- os.path.basename for a POSIX path: the part after the last slash. -/
def pyBasename (p : String) : String :=
  ⟨(p.data.reverse.takeWhile (fun c => c ≠ '/')).reverse⟩

/-- The root part of os.path.splitext on a slash-free name: split at the
last dot only when some character before it is not a dot. -/
def splitextRoot (cs : List Char) : List Char :=
  let pre := ((cs.reverse.dropWhile (fun c => c ≠ '.')).tail).reverse
  if pre.any (fun c => c ≠ '.') then pre else cs

/-- os.path.splitext(os.path.basename(p))[0], the filename fallback used
for the title. -/
def basenameNoExt (p : String) : String :=
  ⟨splitextRoot (pyBasename p).data⟩

/-- PDFOutlineExtractor.is_potential_heading: length window, the
digits-and-punctuation rejection, the seven non-heading patterns, then
acceptance when the text ends in heading punctuation or is fully
uppercase or titlecase. -/
def is_potential_heading (cfg : Config) (text : String) (font_size : ℚ) (flags : ℤ) : Bool :=
  let cs := text.data
  if cs.length < cfg.min_heading_length || cs.length > cfg.max_heading_length then false
  else if digitsPunctOnlyPat cs then false
  else if matchesNonHeading7 cs then false
  else if endsWithHeadingPunct cs then true
  else pythonIsUpper cs || pythonIsTitle cs

/-- simple_extractor.is_valid_heading: length window and the eight
non-heading patterns (the seven shared ones plus the
digits-and-punctuation pattern, last in its list); no case or
punctuation requirement. -/
def is_valid_heading (text : String) : Bool :=
  let cs := text.data
  if cs.length < 3 || cs.length > 200 then false
  else if matchesNonHeading7 cs || digitsPunctOnlyPat cs then false
  else true

/-- PDFOutlineExtractor.extract_text_blocks: the try/except returns the
scanned blocks, or the empty list when opening or parsing raised. -/
def extract_text_blocks (doc : Option (List TextBlock)) : List TextBlock :=
  doc.getD []

/-- sorted(set(font_sizes), reverse=True): the distinct font sizes of the
blocks in descending order. -/
def unique_sizes (text_blocks : List TextBlock) : List ℚ :=
  List.insertionSort (fun a b => a ≥ b) ((text_blocks.map (fun b => b.font_size)).dedup)

/-- The frequency-ranked size ordering analyze_font_hierarchy also
computes (most frequent first, ties broken by larger size); the function
never reads it afterwards. -/
def sorted_sizes_by_freq (text_blocks : List TextBlock) : List ℚ :=
  let font_sizes := text_blocks.map (fun b => b.font_size)
  List.insertionSort
    (fun a b => font_sizes.count b < font_sizes.count a ∨
      (font_sizes.count a = font_sizes.count b ∧ b ≤ a))
    font_sizes.dedup

/-- PDFOutlineExtractor.analyze_font_hierarchy: assign title, H1, H2, H3
to the first four distinct sizes in descending order, when present. -/
def analyze_font_hierarchy (text_blocks : List TextBlock) : FontHierarchy :=
  let u := unique_sizes text_blocks
  ⟨u.get? 0, u.get? 1, u.get? 2, u.get? 3⟩

/-- PDFOutlineExtractor.extract_title: the first block whose size is the
title size, on page 1, passing the structural gate; empty string when no
block qualifies or the hierarchy has no title. -/
def extract_title (cfg : Config) (text_blocks : List TextBlock) (h : FontHierarchy) : String :=
  match h.title with
  | none => ""
  | some title_size =>
    match text_blocks.find? (fun b =>
        b.font_size == title_size && b.page == 1 &&
          is_potential_heading cfg b.text b.font_size b.flags) with
    | some b => b.text
    | none => ""

/-- The tier-gate chain of extract_headings: compare the size against
H1, then H2, then H3 (comparison against an absent tier is false, as a
float never equals None). -/
def heading_level (h : FontHierarchy) (font_size : ℚ) : Option String :=
  if h.H1 = some font_size then some "H1"
  else if h.H2 = some font_size then some "H2"
  else if h.H3 = some font_size then some "H3"
  else none

/-- The body of the extract_headings loop for one block: the structural
gate, then the tier gate. -/
def classify_block (cfg : Config) (h : FontHierarchy) (b : TextBlock) : Option Heading :=
  if is_potential_heading cfg b.text b.font_size b.flags then
    match heading_level h b.font_size with
    | some lvl => some ⟨lvl, b.text, b.page⟩
    | none => none
  else none

/-- PDFOutlineExtractor.extract_headings: the classification loop over
all blocks. -/
def extract_headings (cfg : Config) (text_blocks : List TextBlock) (h : FontHierarchy) :
    List Heading :=
  text_blocks.filterMap (classify_block cfg h)

/-- The duplicate-removal loop of extract_outline, with the seen set as
an accumulator (membership in a Python set of (level, text, page) tuples
is equality of all three fields, i.e. equality of the Heading). -/
def removeDuplicatesAux : List Heading → List Heading → List Heading
  | [], _ => []
  | h :: rest, seen =>
    if h ∈ seen then removeDuplicatesAux rest seen
    else h :: removeDuplicatesAux rest (h :: seen)

/-- Remove duplicates while preserving order, as in extract_outline. -/
def removeDuplicates (headings : List Heading) : List Heading :=
  removeDuplicatesAux headings []

/-- PDFOutlineExtractor.extract_outline: empty result on an empty scan,
otherwise hierarchy analysis, title extraction with the filename
fallback (Python truthiness: the empty string is falsy), heading
extraction and duplicate removal. -/
def extract_outline (cfg : Config) (doc : Option (List TextBlock)) (pdf_path : String) :
    OutlineResult :=
  let text_blocks := extract_text_blocks doc
  if text_blocks.isEmpty then ⟨"", []⟩
  else
    let font_hierarchy := analyze_font_hierarchy text_blocks
    let title := extract_title cfg text_blocks font_hierarchy
    let headings := extract_headings cfg text_blocks font_hierarchy
    ⟨if title.isEmpty then basenameNoExt pdf_path else title, removeDuplicates headings⟩

/-- simple_extractor.extract_pdf_outline: the function-based pipeline.
It differs from the class-based one in its structural gate
(is_valid_heading) and in guarding the title scan by the truthiness of
the title size (a zero title size skips the scan). -/
def extract_pdf_outline (doc : Option (List TextBlock)) (pdf_path : String) : OutlineResult :=
  match doc with
  | none => ⟨"", []⟩
  | some text_blocks =>
    if text_blocks.isEmpty then ⟨"", []⟩
    else
      let u := unique_sizes text_blocks
      let font_hierarchy : FontHierarchy := ⟨u.get? 0, u.get? 1, u.get? 2, u.get? 3⟩
      let title :=
        match font_hierarchy.title with
        | some title_size =>
          if title_size = 0 then ""
          else
            match text_blocks.find? (fun b =>
                b.font_size == title_size && b.page == 1 && is_valid_heading b.text) with
            | some b => b.text
            | none => ""
        | none => ""
      let headings := text_blocks.filterMap (fun b =>
        if is_valid_heading b.text then
          match heading_level font_hierarchy b.font_size with
          | some lvl => some (⟨lvl, b.text, b.page⟩ : Heading)
          | none => none
        else none)
      ⟨if title.isEmpty then basenameNoExt pdf_path else title, removeDuplicates headings⟩

/-- Specification-side characterisation of duplicate removal: keep the
head, erase every later occurrence of it, recurse. -/
def firstOccurrences {α : Type} [DecidableEq α] : List α → List α
  | [] => []
  | a :: rest => a :: firstOccurrences (rest.filter (fun x => decide (x ≠ a)))
termination_by l => l.length
decreasing_by
  simp only [List.length_cons]
  have := List.length_filter_le (fun x => decide (x ≠ a)) rest
  omega

/-- The concrete two-block document on which the two pipelines differ:
the second block is lowercase without trailing punctuation, so only the
function-based gate accepts it. -/
def divergenceDoc : List TextBlock :=
  [⟨"Title Text", 24, "F", 0, 1, (0, 0, 0, 0)⟩,
   ⟨"hello world", 18, "F", 0, 1, (0, 0, 0, 0)⟩]

/-- The four-fragment synthetic document of the specification's worked
example. -/
def syntheticDoc : List TextBlock :=
  [⟨"Doc Title", 24, "F", 0, 1, (0, 0, 0, 0)⟩,
   ⟨"Introduction", 18, "F", 0, 1, (0, 0, 0, 0)⟩,
   ⟨"Background.", 14, "F", 0, 2, (0, 0, 0, 0)⟩,
   ⟨"Page 3", 10, "F", 0, 3, (0, 0, 0, 0)⟩]

/-- C1 counterexample: the two structural gates do not accept the same
texts ("hello world" passes is_valid_heading but fails
is_potential_heading), and on a concrete two-fragment document the
class-based and function-based pipelines return different results. -/
theorem gates_differ_counterexample :
    is_potential_heading defaultConfig "hello world" 18 0 = false ∧
    is_valid_heading "hello world" = true ∧
    extract_outline defaultConfig (some divergenceDoc) "a.pdf" ≠
      extract_pdf_outline (some divergenceDoc) "a.pdf" := by
  refine ⟨rfl, rfl, ?_⟩
  decide

/-- C1 (amended): the class-based structural gate is strictly stronger:
every text accepted by is_potential_heading (with the constructor's
configuration) is accepted by is_valid_heading; the converse fails, so
the two pipelines need not produce the same OutlineResult. -/
theorem gate_implication (text : String) (fs : ℚ) (fl : ℤ)
    (h : is_potential_heading defaultConfig text fs fl = true) :
    is_valid_heading text = true := by
  unfold is_potential_heading at h
  unfold is_valid_heading
  simp only [defaultConfig] at h
  simp at h
  obtain ⟨⟨hl1, hl2⟩, hdp, h7, -⟩ := h
  simp [hdp, h7]
  omega

/-- C1 witness: a concrete text on which the amended implication applies. -/
theorem gate_implication_witness :
    is_potential_heading defaultConfig "INTRODUCTION" 12 0 = true ∧
    is_valid_heading "INTRODUCTION" = true :=
  ⟨rfl, gate_implication "INTRODUCTION" 12 0 rfl⟩

/-- C5: the structural gate rejects "Page 12", "www.example.com" and
"1.2.3", and accepts "INTRODUCTION" and "Chapter One: Foundations.",
for every font size and flag value. -/
theorem structural_gate_examples :
    ∀ (fs : ℚ) (fl : ℤ),
      is_potential_heading defaultConfig "Page 12" fs fl = false ∧
      is_potential_heading defaultConfig "www.example.com" fs fl = false ∧
      is_potential_heading defaultConfig "1.2.3" fs fl = false ∧
      is_potential_heading defaultConfig "INTRODUCTION" fs fl = true ∧
      is_potential_heading defaultConfig "Chapter One: Foundations." fs fl = true :=
  fun _ _ => ⟨rfl, rfl, rfl, rfl, rfl⟩

/-- C6 counterexample: the synthetic document has four distinct font
sizes, not three, and H3 is set (to 10), contrary to the claim's
"only 3 distinct sizes existed, leaving H3 unset". -/
theorem synthetic_doc_h3_set :
    (unique_sizes syntheticDoc).length = 4 ∧
    (analyze_font_hierarchy syntheticDoc).H3 = some 10 := by
  constructor
  · decide
  · decide

/-- C6 (amended): the pipeline returns title "Doc Title" and the outline
[H1 "Introduction" page 1, H2 "Background." page 2]; the size-10
fragment is rejected by the page-number pattern of the structural gate;
four distinct sizes exist, so H3 is set to 10 (the fragment has tier H3
but fails the structural gate). -/
theorem synthetic_doc_outline :
    extract_outline defaultConfig (some syntheticDoc) "doc.pdf" =
      ⟨"Doc Title", [⟨"H1", "Introduction", 1⟩, ⟨"H2", "Background.", 2⟩]⟩ ∧
    (analyze_font_hierarchy syntheticDoc).H3 = some 10 ∧
    (∀ (fs : ℚ) (fl : ℤ), is_potential_heading defaultConfig "Page 3" fs fl = false) := by
  refine ⟨by decide, by decide, fun _ _ => rfl⟩

theorem firstOccurrences_sublist {α : Type} [DecidableEq α] (l : List α) :
    List.Sublist (firstOccurrences l) l := by
  induction l using firstOccurrences.induct with
  | case1 => simp [firstOccurrences]
  | case2 a rest ih =>
    rw [firstOccurrences]
    exact List.Sublist.cons₂ a (ih.trans (List.filter_sublist rest))

theorem firstOccurrences_idem {α : Type} [DecidableEq α] (l : List α) :
    firstOccurrences (firstOccurrences l) = firstOccurrences l := by
  induction l using firstOccurrences.induct with
  | case1 => simp [firstOccurrences]
  | case2 a rest ih =>
    rw [firstOccurrences, firstOccurrences]
    congr 1
    rw [List.filter_eq_self.mpr, ih]
    intro x hx
    have hx' := (firstOccurrences_sublist _).subset hx
    simpa using (List.of_mem_filter hx')

theorem removeDuplicatesAux_eq (l seen : List Heading) :
    removeDuplicatesAux l seen =
      firstOccurrences (l.filter (fun x => decide (x ∉ seen))) := by
  induction l generalizing seen with
  | nil => simp [removeDuplicatesAux, firstOccurrences]
  | cons a rest ih =>
    simp only [removeDuplicatesAux]
    by_cases ha : a ∈ seen
    · rw [if_pos ha, ih, List.filter_cons_of_neg (by simpa using ha)]
    · rw [if_neg ha, ih, List.filter_cons_of_pos (by simpa using ha), firstOccurrences]
      congr 1
      rw [List.filter_filter]
      congr 1
      apply List.filter_congr
      intro x hx
      by_cases hxa : x = a <;> by_cases hxs : x ∈ seen <;> simp [hxa, hxs]

/-- C8: duplicate removal keeps exactly the first occurrence of each
(level, text, page) triple in original order (it equals the
keep-head-erase-later-copies recursion and is a sublist of its input, so
never re-sorts), and it is idempotent. -/
theorem dedup_first_occurrence :
    ∀ l : List Heading,
      removeDuplicates l = firstOccurrences l ∧
      removeDuplicates (removeDuplicates l) = removeDuplicates l ∧
      List.Sublist (removeDuplicates l) l := by
  have hgen : ∀ m : List Heading, removeDuplicates m = firstOccurrences m := by
    intro m
    unfold removeDuplicates
    rw [removeDuplicatesAux_eq]
    congr 1
    apply List.filter_eq_self.mpr
    intro x _
    simp
  intro l
  refine ⟨hgen l, ?_, (hgen l) ▸ firstOccurrences_sublist l⟩
  rw [hgen (removeDuplicates l), hgen l, firstOccurrences_idem]

theorem dedup_all_eq {α : Type} [DecidableEq α] (s : α) :
    ∀ l : List α, l ≠ [] → (∀ x ∈ l, x = s) → l.dedup = [s] := by
  intro l
  induction l with
  | nil => simp
  | cons a rest ih =>
    intro _ hall
    have ha : a = s := hall a (List.mem_cons_self a rest)
    by_cases hr : rest = []
    · subst hr ha
      simp
    · have hrest : rest.dedup = [s] :=
        ih hr (fun x hx => hall x (List.mem_cons_of_mem a hx))
      obtain ⟨b, hb⟩ := List.exists_mem_of_ne_nil rest hr
      have hbs : b = s := hall b (List.mem_cons_of_mem a hb)
      rw [List.dedup_cons_of_mem (by rw [ha, ← hbs]; exact hb), hrest]

/-- C4: when every block of a nonempty document has the same font size,
the hierarchy has only the title tier and the classifier emits no
headings. -/
theorem single_size_no_headings (cfg : Config) (blocks : List TextBlock) (s : ℚ)
    (hne : blocks ≠ []) (hall : ∀ b ∈ blocks, b.font_size = s) :
    analyze_font_hierarchy blocks = ⟨some s, none, none, none⟩ ∧
    extract_headings cfg blocks (analyze_font_hierarchy blocks) = [] := by
  have hu : unique_sizes blocks = [s] := by
    unfold unique_sizes
    rw [dedup_all_eq s _ (by simpa using hne) ?_]
    · rfl
    · intro x hx
      obtain ⟨b, hb, rfl⟩ := List.mem_map.mp hx
      exact hall b hb
  have hana : analyze_font_hierarchy blocks = ⟨some s, none, none, none⟩ := by
    simp [analyze_font_hierarchy, hu]
  refine ⟨hana, ?_⟩
  rw [hana]
  unfold extract_headings
  rw [List.filterMap_eq_nil_iff]
  intro b _
  simp [classify_block, heading_level]

/-- C4 witness blocks: two blocks sharing font size 12. -/
def singleSizeDoc : List TextBlock :=
  [⟨"Hello World.", 12, "F", 0, 1, (0, 0, 0, 0)⟩,
   ⟨"Another Line.", 12, "F", 0, 2, (0, 0, 0, 0)⟩]

/-- C4 witness. -/
theorem single_size_no_headings_witness :
    analyze_font_hierarchy singleSizeDoc = ⟨some 12, none, none, none⟩ ∧
    extract_headings defaultConfig singleSizeDoc (analyze_font_hierarchy singleSizeDoc) = [] :=
  single_size_no_headings defaultConfig singleSizeDoc 12 (by decide) (by decide)

/-- C3: one block passes the classifier exactly when the structural gate
accepts it and its size equals the H1, H2 or H3 tier value; the level is
determined by the H1-then-H2-then-H3 comparison chain; a block with no
matching H tier (in particular one matching only the title size) or a
failing gate yields nothing. -/
theorem classifier_tier_iff :
    ∀ (cfg : Config) (h : FontHierarchy) (b : TextBlock),
      (extract_headings cfg [b] h ≠ [] ↔
        (is_potential_heading cfg b.text b.font_size b.flags = true ∧
          (h.H1 = some b.font_size ∨ h.H2 = some b.font_size ∨ h.H3 = some b.font_size))) ∧
      (is_potential_heading cfg b.text b.font_size b.flags = true →
        h.H1 = some b.font_size →
        extract_headings cfg [b] h = [⟨"H1", b.text, b.page⟩]) ∧
      (is_potential_heading cfg b.text b.font_size b.flags = true →
        h.H1 ≠ some b.font_size → h.H2 = some b.font_size →
        extract_headings cfg [b] h = [⟨"H2", b.text, b.page⟩]) ∧
      (is_potential_heading cfg b.text b.font_size b.flags = true →
        h.H1 ≠ some b.font_size → h.H2 ≠ some b.font_size → h.H3 = some b.font_size →
        extract_headings cfg [b] h = [⟨"H3", b.text, b.page⟩]) ∧
      (is_potential_heading cfg b.text b.font_size b.flags = false →
        extract_headings cfg [b] h = []) ∧
      (h.H1 ≠ some b.font_size → h.H2 ≠ some b.font_size → h.H3 ≠ some b.font_size →
        extract_headings cfg [b] h = []) := by
  intro cfg h b
  by_cases hg : is_potential_heading cfg b.text b.font_size b.flags = true <;>
    by_cases e1 : h.H1 = some b.font_size <;>
    by_cases e2 : h.H2 = some b.font_size <;>
    by_cases e3 : h.H3 = some b.font_size <;>
    simp [extract_headings, classify_block, heading_level, hg, e1, e2, e3]

/-- C3 witness. -/
theorem classifier_tier_iff_witness :
    extract_headings defaultConfig [⟨"Introduction", 18, "F", 0, 1, (0, 0, 0, 0)⟩]
      ⟨some 24, some 18, some 14, none⟩ = [⟨"H1", "Introduction", 1⟩] :=
  (classifier_tier_iff defaultConfig ⟨some 24, some 18, some 14, none⟩
    ⟨"Introduction", 18, "F", 0, 1, (0, 0, 0, 0)⟩).2.1 rfl rfl

/-- C10: the structural gate reads only the text (the font size and
flags arguments are dead), and the min_font_size and max_font_size
fields are read by no operation, so the whole pipeline result is
invariant under them. -/
theorem gate_depends_only_on_text :
    (∀ (cfg : Config) (text : String) (fs fs' : ℚ) (fl fl' : ℤ),
       is_potential_heading cfg text fs fl = is_potential_heading cfg text fs' fl') ∧
    (∀ (cfg cfg' : Config) (doc : Option (List TextBlock)) (path : String),
       cfg.min_heading_length = cfg'.min_heading_length →
       cfg.max_heading_length = cfg'.max_heading_length →
       extract_outline cfg doc path = extract_outline cfg' doc path) := by
  constructor
  · intro cfg text fs fs' fl fl'
    rfl
  · intro cfg cfg' doc path h1 h2
    cases cfg
    cases cfg'
    dsimp only at h1 h2
    subst h1
    subst h2
    rfl

/-- C10 witness: two configurations differing only in the font-size
window give the same result on a concrete document. -/
theorem gate_depends_only_on_text_witness :
    extract_outline ⟨8, 72, 3, 200⟩
        (some [⟨"Sample Title", 20, "F", 0, 1, (0, 0, 0, 0)⟩]) "x.pdf" =
      extract_outline ⟨0, 5, 3, 200⟩
        (some [⟨"Sample Title", 20, "F", 0, 1, (0, 0, 0, 0)⟩]) "x.pdf" :=
  gate_depends_only_on_text.2 ⟨8, 72, 3, 200⟩ ⟨0, 5, 3, 200⟩
    (some [⟨"Sample Title", 20, "F", 0, 1, (0, 0, 0, 0)⟩]) "x.pdf" rfl rfl

theorem unique_sizes_sorted (blocks : List TextBlock) :
    List.Sorted (fun a b => a ≥ b) (unique_sizes blocks) :=
  List.sorted_insertionSort _ _

theorem unique_sizes_nodup (blocks : List TextBlock) :
    (unique_sizes blocks).Nodup :=
  ((List.perm_insertionSort _ _).symm).nodup (List.nodup_dedup _)

theorem mem_unique_sizes {blocks : List TextBlock} {x : ℚ} :
    x ∈ unique_sizes blocks ↔ x ∈ blocks.map (fun b => b.font_size) := by
  unfold unique_sizes
  rw [List.mem_insertionSort, List.mem_dedup]

theorem unique_sizes_pairwise_gt (blocks : List TextBlock) :
    (unique_sizes blocks).Pairwise (fun a b => a > b) :=
  ((unique_sizes_sorted blocks).and (unique_sizes_nodup blocks)).imp
    (fun h => lt_of_le_of_ne h.1 (Ne.symm h.2))

/-- C2: with at least four distinct font sizes, the hierarchy binds
title, H1, H2, H3 to the four largest distinct sizes in strictly
descending order, and the result is a function of the distinct-size
descending order alone (two documents with the same distinct-size order
get the same hierarchy, whatever their frequency profiles). -/
theorem hierarchy_top_four :
    ∀ blocks : List TextBlock, 4 ≤ (unique_sizes blocks).length →
      ∃ t u1 u2 u3 : ℚ,
        analyze_font_hierarchy blocks = ⟨some t, some u1, some u2, some u3⟩ ∧
        u1 < t ∧ u2 < u1 ∧ u3 < u2 ∧
        t ∈ blocks.map (fun b => b.font_size) ∧
        u1 ∈ blocks.map (fun b => b.font_size) ∧
        u2 ∈ blocks.map (fun b => b.font_size) ∧
        u3 ∈ blocks.map (fun b => b.font_size) ∧
        (∀ s ∈ blocks.map (fun b => b.font_size),
          s ≤ t ∧ (s < t → s ≤ u1) ∧ (s < u1 → s ≤ u2) ∧ (s < u2 → s ≤ u3)) ∧
        (∀ blocks' : List TextBlock, unique_sizes blocks' = unique_sizes blocks →
          analyze_font_hierarchy blocks' = analyze_font_hierarchy blocks) := by
  intro blocks hlen
  obtain ⟨t, u1, u2, u3, rest, hu⟩ :
      ∃ t u1 u2 u3 rest, unique_sizes blocks = t :: u1 :: u2 :: u3 :: rest := by
    rcases h : unique_sizes blocks with _ | ⟨a, _ | ⟨b, _ | ⟨c, _ | ⟨d, r⟩⟩⟩⟩ <;>
      rw [h] at hlen
    · simp at hlen
    · simp at hlen
    · simp at hlen
    · simp at hlen
    · exact ⟨a, b, c, d, r, rfl⟩
  have hpw := unique_sizes_pairwise_gt blocks
  rw [hu] at hpw
  rcases List.pairwise_cons.mp hpw with ⟨ht, hpw1⟩
  rcases List.pairwise_cons.mp hpw1 with ⟨h1, hpw2⟩
  rcases List.pairwise_cons.mp hpw2 with ⟨h2, hpw3⟩
  rcases List.pairwise_cons.mp hpw3 with ⟨h3, -⟩
  have f1 : u1 < t := ht u1 (by simp)
  have f2 : u2 < u1 := h1 u2 (by simp)
  have f3 : u3 < u2 := h2 u3 (by simp)
  have hmem : ∀ y, y ∈ unique_sizes blocks → y ∈ blocks.map (fun b => b.font_size) :=
    fun y hy => mem_unique_sizes.mp hy
  refine ⟨t, u1, u2, u3, by simp [analyze_font_hierarchy, hu], f1, f2, f3,
    hmem t (by rw [hu]; simp), hmem u1 (by rw [hu]; simp),
    hmem u2 (by rw [hu]; simp), hmem u3 (by rw [hu]; simp), ?_, ?_⟩
  · intro s hs
    have hsu : s ∈ unique_sizes blocks := mem_unique_sizes.mpr hs
    rw [hu] at hsu
    simp only [List.mem_cons] at hsu
    rcases hsu with rfl | rfl | rfl | rfl | hsm
    · exact ⟨le_refl s, fun h => by linarith, fun h => by linarith, fun h => by linarith⟩
    · exact ⟨le_of_lt f1, fun _ => le_refl s, fun h => by linarith, fun h => by linarith⟩
    · exact ⟨by linarith, fun _ => le_of_lt f2, fun _ => le_refl s, fun h => by linarith⟩
    · exact ⟨by linarith, fun _ => by linarith, fun _ => le_of_lt f3, fun _ => le_refl s⟩
    · have f4 : s < u3 := h3 s hsm
      exact ⟨by linarith, fun _ => by linarith, fun _ => by linarith, fun _ => le_of_lt f4⟩
  · intro blocks' h
    simp [analyze_font_hierarchy, h]

/-- C2 witness blocks: four distinct sizes 24, 18, 14, 10. -/
def fourSizeDoc : List TextBlock :=
  [⟨"Alpha Title", 24, "F", 0, 1, (0, 0, 0, 0)⟩,
   ⟨"Beta Head", 18, "F", 0, 1, (0, 0, 0, 0)⟩,
   ⟨"Gamma Head", 14, "F", 0, 2, (0, 0, 0, 0)⟩,
   ⟨"Delta Head", 10, "F", 0, 2, (0, 0, 0, 0)⟩]

/-- C2 witness. -/
theorem hierarchy_top_four_witness :
    ∃ t u1 u2 u3 : ℚ,
      analyze_font_hierarchy fourSizeDoc = ⟨some t, some u1, some u2, some u3⟩ ∧
      u1 < t ∧ u2 < u1 ∧ u3 < u2 ∧
      t ∈ fourSizeDoc.map (fun b => b.font_size) ∧
      u1 ∈ fourSizeDoc.map (fun b => b.font_size) ∧
      u2 ∈ fourSizeDoc.map (fun b => b.font_size) ∧
      u3 ∈ fourSizeDoc.map (fun b => b.font_size) ∧
      (∀ s ∈ fourSizeDoc.map (fun b => b.font_size),
        s ≤ t ∧ (s < t → s ≤ u1) ∧ (s < u1 → s ≤ u2) ∧ (s < u2 → s ≤ u3)) ∧
      (∀ blocks' : List TextBlock, unique_sizes blocks' = unique_sizes fourSizeDoc →
        analyze_font_hierarchy blocks' = analyze_font_hierarchy fourSizeDoc) :=
  hierarchy_top_four fourSizeDoc (by decide)

theorem gate_empty_text (cfg : Config) (fs : ℚ) (fl : ℤ) :
    is_potential_heading cfg "" fs fl = false := by
  unfold is_potential_heading
  rcases Nat.eq_zero_or_pos cfg.min_heading_length with h | h
  · simp [h, digitsPunctOnlyPat, matchesNonHeading7, versionPat, wordNumPat, wwwPat,
      httpPat, emailPat, matchCaseless, endsWithHeadingPunct, pythonIsUpper,
      pythonIsTitle, pythonIsTitleAux]
  · simp [h]

/-- C7: with a nonempty hierarchy the result's title is the text of the
first block (in original order) whose size is the title size, on page 1,
passing the structural gate; when no block qualifies, the title is the
input file's base name with its extension stripped. -/
theorem title_first_match :
    ∀ (cfg : Config) (blocks : List TextBlock) (path : String) (ts : ℚ),
      (analyze_font_hierarchy blocks).title = some ts →
      (extract_outline cfg (some blocks) path).title =
        (match blocks.find? (fun b => b.font_size == ts && b.page == 1 &&
            is_potential_heading cfg b.text b.font_size b.flags) with
         | some b => b.text
         | none => basenameNoExt path) := by
  intro cfg blocks path ts hts
  have hne : blocks.isEmpty = false := by
    cases blocks with
    | nil => simp [analyze_font_hierarchy, unique_sizes] at hts
    | cons a l => rfl
  unfold extract_outline extract_text_blocks
  simp only [Option.getD_some, hne, Bool.false_eq_true, if_false]
  unfold extract_title
  rw [hts]
  rcases hfind : blocks.find? (fun b => b.font_size == ts && b.page == 1 &&
      is_potential_heading cfg b.text b.font_size b.flags) with - | b
  · simp [hfind]
    exact fun h => absurd h (by decide)
  · have hpred := List.find?_some hfind
    simp only [Bool.and_eq_true] at hpred
    have hgate := hpred.2
    have htext : b.text.isEmpty = false := by
      cases htxt : b.text.isEmpty
      · rfl
      · exfalso
        rw [(String.isEmpty_iff b.text).mp htxt, gate_empty_text] at hgate
        exact Bool.false_ne_true hgate
    simp [hfind, htext]

/-- C7 witness blocks. -/
def titleDoc : List TextBlock :=
  [⟨"My Paper Title", 24, "F", 0, 1, (0, 0, 0, 0)⟩,
   ⟨"First Section", 12, "F", 0, 1, (0, 0, 0, 0)⟩]

/-- C7 witness. -/
theorem title_first_match_witness :
    (extract_outline defaultConfig (some titleDoc) "w.pdf").title =
      (match titleDoc.find? (fun b => b.font_size == 24 && b.page == 1 &&
          is_potential_heading defaultConfig b.text b.font_size b.flags) with
       | some b => b.text
       | none => basenameNoExt "w.pdf") :=
  title_first_match defaultConfig titleDoc "w.pdf" 24 (by decide)

/-- C9: a document whose open or parse failed (none) and a document
yielding zero text blocks both produce exactly the empty OutlineResult;
the embedded pipeline is a total function, so no exception escapes. -/
theorem empty_doc_empty_result :
    ∀ (cfg : Config) (path : String),
      extract_outline cfg none path = ⟨"", []⟩ ∧
      extract_outline cfg (some []) path = ⟨"", []⟩ :=
  fun _ _ => ⟨rfl, rfl⟩

end PDFOutline
